import Mathlib

/-!
Shallow embedding of `src/alloc.c` (a user-space heap allocator built on a
single growing arena).  Following the spec's design note, raw pointers are
modelled as arena-relative addresses (`Nat`), the header placed before each
payload is kept in an explicit header table (address ↦ record), and payload
bytes live in a separate byte memory.  `NULL` is `Option.none` for links and
the address `0` never denotes a user pointer (user pointers are always at
least one header width past an arena base).
-/

namespace MemAlloc

/-- Modelled from the spec: the fixed Block Header width, `sizeof(free_block)`.
The header declaration lives in `alloc.h`, which is not part of `src/`; the
spec's data model gives the header its `size` and `next` fields, laid out as
two 8-byte words. -/
def HDRW : Nat := 16

/-- The size-type modulus: `size_t` arithmetic in the source is modulo `2^64`. -/
def W : Nat := 2 ^ 64

/-- `ALIGNMENT` from `alloc.c`. -/
def ALIGNMENT : Nat := 16

/-- Modelled from the spec: the allocation sentinel value for the header `tag`.
`alloc.h` (not in `src/`) would define it; `alloc.c` itself never reads or
writes the tag, which is exactly what several claims are about. -/
def MAGIC : Nat := 0x0123456789ABCDEF

/-- The `free_block` header record: usable `size`, free-list `next` link and
the validity `tag` (the tag field is modelled from the spec's data model;
no function in `alloc.c` ever touches it). -/
structure Hdr where
  size : Nat
  next : Option Nat
  tag : Nat
deriving DecidableEq

/-- Read the header stored at address `a`; reading an address where no header
was ever written yields an arbitrary fixed junk record, mirroring a C read of
uninitialized memory. -/
def lookupHdr : List (Nat × Hdr) → Nat → Hdr
  | [], _ => ⟨0, none, 0⟩
  | (b, h) :: t, a => if b = a then h else lookupHdr t a

/-- Write the header `v` at address `a` (overwriting any previous record). -/
def storeHdr : List (Nat × Hdr) → Nat → Hdr → List (Nat × Hdr)
  | [], a, v => [(a, v)]
  | (b, h) :: t, a, v => if b = a then (a, v) :: t else (b, h) :: storeHdr t a v

/-- The whole allocator state: the header table, the globals `HEAD` and
`next_fit_ptr` from `alloc.c`, the current program break `brk` together with
the exhaustion bound `brkLimit` (modelled from the spec: `sbrk` fails on
resource exhaustion), and the payload byte memory. -/
structure AllocState where
  heap : List (Nat × Hdr)
  head : Option Nat
  nfp : Option Nat
  brk : Nat
  brkLimit : Nat
  mem : Nat → Nat

/-- `sbrk(n)`: returns the old break and advances it, or fails when the
operating system denies the extension (modelled by the `brkLimit` bound). -/
def sbrkM (s : AllocState) (n : Nat) : Option (AllocState × Nat) :=
  if s.brk + n ≤ s.brkLimit then some ({ s with brk := s.brk + n }, s.brk) else none

/-- `memset(a, 0, n)` on the byte memory. -/
def memset0 (m : Nat → Nat) (a n : Nat) : Nat → Nat :=
  fun x => if a ≤ x ∧ x < a + n then 0 else m x

/-- `memcpy(dst, src, n)` on the byte memory. -/
def memcpyB (m : Nat → Nat) (dst src n : Nat) : Nat → Nat :=
  fun x => if dst ≤ x ∧ x < dst + n then m (src + (x - dst)) else m x

/-- The size alignment in `tumalloc`:
`size = (size + ALIGNMENT - 1) & ~(ALIGNMENT - 1)` in `size_t` arithmetic. -/
def align16 (s : Nat) : Nat := (s + (ALIGNMENT - 1)) % W / ALIGNMENT * ALIGNMENT

/-- `split(block, size)` from `alloc.c`: refuse when
`block->size < size + sizeof(free_block)`; otherwise write a new header at
`block + size + sizeof(free_block)` carrying the leftover size and the old
block's `next`, shrink the block to `size`, and return the block.  Note that
nothing here (nor in the caller) links the new header into the free list. -/
def split (s : AllocState) (blk size : Nat) : AllocState × Option Nat :=
  let b := lookupHdr s.heap blk
  if b.size < size + HDRW then (s, none)
  else
    let splitPnt := blk + size + HDRW
    let s1 := { s with heap := storeHdr s.heap splitPnt ⟨b.size - size - HDRW, b.next, 0⟩ }
    let s2 := { s1 with heap := storeHdr s1.heap blk { b with size := size } }
    (s2, some blk)

/-- Loop body of `find_prev`, fueled to keep the traversal total. -/
def findPrevGo (s : AllocState) (blk : Nat) : Nat → Option Nat → Option Nat
  | 0, _ => none
  | _, none => none
  | fuel + 1, some c =>
      if c + (lookupHdr s.heap c).size + HDRW = blk then some c
      else findPrevGo s blk fuel (lookupHdr s.heap c).next

/-- `find_prev(block)`: scan the free list for a block whose end address is
`block`'s start address. -/
def find_prev (s : AllocState) (blk : Nat) : Option Nat :=
  findPrevGo s blk (s.heap.length + 1) s.head

/-- Loop body of `find_next`, fueled. -/
def findNextGo (s : AllocState) (blkEnd : Nat) : Nat → Option Nat → Option Nat
  | 0, _ => none
  | _, none => none
  | fuel + 1, some c =>
      if c = blkEnd then some c
      else findNextGo s blkEnd fuel (lookupHdr s.heap c).next

/-- `find_next(block)`: scan the free list for a block starting exactly at
`block`'s end address. -/
def find_next (s : AllocState) (blk : Nat) : Option Nat :=
  findNextGo s (blk + (lookupHdr s.heap blk).size + HDRW) (s.heap.length + 1) s.head

/-- Loop body of `remove_free_block`, fueled. -/
def removeGo (s : AllocState) (blk : Nat) : Nat → Option Nat → AllocState
  | 0, _ => s
  | _, none => s
  | fuel + 1, some c =>
      let ch := lookupHdr s.heap c
      if ch.next = some blk then
        { s with heap := storeHdr s.heap c { ch with next := (lookupHdr s.heap blk).next } }
      else removeGo s blk fuel ch.next

/-- `remove_free_block(block)` from `alloc.c` (dead code there: `tumalloc`
performs its own unlinking). -/
def remove_free_block (s : AllocState) (blk : Nat) : AllocState :=
  match s.head with
  | some c =>
      if c = blk then { s with head := (lookupHdr s.heap blk).next }
      else removeGo s blk (s.heap.length + 1) (some c)
  | none => removeGo s blk (s.heap.length + 1) none

/-- `coalesce(block)` from `alloc.c`: look up a previous and a next address
neighbor in the free list and absorb whichever is contiguous.  Note that
`tufree` never calls this function. -/
def coalesce (s : AllocState) (blk : Option Nat) : AllocState × Option Nat :=
  match blk with
  | none => (s, none)
  | some b0 =>
      let prev := find_prev s b0
      let next := find_next s b0
      let step3 : AllocState × Nat :=
        match prev with
        | some p =>
            let ph := lookupHdr s.heap p
            if p + ph.size + HDRW = b0 then
              let bh := lookupHdr s.heap b0
              let ph1 := { ph with size := ph.size + bh.size + HDRW }
              let ph2 := if ph1.next = some b0 then { ph1 with next := bh.next } else ph1
              ({ s with heap := storeHdr s.heap p ph2 }, p)
            else (s, b0)
        | none => (s, b0)
      let s1 := step3.1
      let b1 := step3.2
      match next with
      | some nx =>
          let bh := lookupHdr s1.heap b1
          if b1 + bh.size + HDRW = nx then
            let nh := lookupHdr s1.heap nx
            ({ s1 with heap := storeHdr s1.heap b1 { bh with size := bh.size + nh.size + HDRW, next := nh.next } },
             some b1)
          else (s1, some b1)
      | none => (s1, some b1)

/-- `do_alloc(size)` from `alloc.c` (dead code there: `tumalloc` calls `sbrk`
directly): grow the arena and initialize a fresh header. -/
def do_alloc (s : AllocState) (size : Nat) : AllocState × Option Nat :=
  match sbrkM s (size + HDRW) with
  | none => (s, none)
  | some (s1, base) =>
      ({ s1 with heap := storeHdr s1.heap base ⟨size, none, 0⟩ }, some base)

/-- The `sbrk` fallback at the end of `tumalloc`: grow the arena, initialize
the fresh header, reset `next_fit_ptr` to `NULL` and return the payload
pointer one header past the base. -/
def tumallocGrow (s : AllocState) (size : Nat) : AllocState × Option Nat :=
  match sbrkM s (size + HDRW) with
  | none => (s, none)
  | some (s1, base) =>
      ({ s1 with heap := storeHdr s1.heap base ⟨size, none, 0⟩, nfp := none },
       some (base + HDRW))

/-- The free-list scan of `tumalloc`, fueled: starting from `current` with the
given `prev`, take the first block with `current->size >= size` (splitting
when `current->size > size + sizeof(free_block)`), unlink it with
`prev->next = current->next` — or `HEAD = current->next` when `prev` is still
`NULL` — update `next_fit_ptr`, and return `current + 1`; on running off the
list fall through to the `sbrk` path (no wrap back to `HEAD`). -/
def tumallocLoop (s : AllocState) (size : Nat) : Nat → Option Nat → Option Nat → AllocState × Option Nat
  | _, none, _ => tumallocGrow s size
  | 0, some _, _ => (s, none)
  | fuel + 1, some c, prev =>
      let ch := lookupHdr s.heap c
      if size ≤ ch.size then
        let s1 := if size + HDRW < ch.size then (split s c size).1 else s
        let chA := lookupHdr s1.heap c
        let s2 :=
          match prev with
          | some p =>
              let ph := lookupHdr s1.heap p
              { s1 with heap := storeHdr s1.heap p { ph with next := chA.next } }
          | none => { s1 with head := chA.next }
        let s3 := { s2 with nfp := match chA.next with | some nx => some nx | none => s2.head }
        (s3, some (c + HDRW))
      else
        tumallocLoop s size fuel ch.next (some c)

/-- `tumalloc(size)` from `alloc.c`: align the size up to 16, start the scan
from `next_fit_ptr` when set and from `HEAD` otherwise, and fall back to
`sbrk` when the scan runs off the list. -/
def tumalloc (s : AllocState) (size0 : Nat) : AllocState × Option Nat :=
  let size := align16 size0
  let start := match s.nfp with | some c => some c | none => s.head
  tumallocLoop s size (s.heap.length + 1) start none

/-- `tucalloc(num, size)` from `alloc.c`: `total_size = num * size` in wrapping
`size_t` arithmetic (no overflow check), delegate to `tumalloc`, zero the
region on success. -/
def tucalloc (s : AllocState) (num size : Nat) : AllocState × Option Nat :=
  let total := num * size % W
  let r := tumalloc s total
  match r.2 with
  | some p => ({ r.1 with mem := memset0 r.1.mem p total }, some p)
  | none => (r.1, none)

/-- `tufree(ptr)` from `alloc.c`: ignore `NULL`; otherwise recover the header
at `ptr - sizeof(free_block)` and push it at the head of the free list.  No
tag is examined, nothing aborts, and `coalesce` is never invoked. -/
def tufree (s : AllocState) (p : Nat) : AllocState :=
  if p = 0 then s
  else
    let blk := p - HDRW
    let bh := lookupHdr s.heap blk
    { s with heap := storeHdr s.heap blk { bh with next := s.head }, head := some blk }

/-- `turealloc(ptr, new_size)` from `alloc.c`: `NULL` delegates to `tumalloc`;
a block whose current size already covers `new_size` is returned unchanged;
otherwise allocate anew, copy `block->size` bytes and free the old pointer,
or return `NULL` leaving everything as `tumalloc` left it when the inner
allocation failed. -/
def turealloc (s : AllocState) (p new_size : Nat) : AllocState × Option Nat :=
  if p = 0 then tumalloc s new_size
  else
    let blk := p - HDRW
    let bh := lookupHdr s.heap blk
    if new_size ≤ bh.size then (s, some p)
    else
      let r := tumalloc s new_size
      match r.2 with
      | some q =>
          let bh1 := lookupHdr r.1.heap blk
          let s2 := { r.1 with mem := memcpyB r.1.mem q p bh1.size }
          (tufree s2 p, some q)
      | none => (r.1, none)

/-- The list of block addresses reachable from `cur` through `next` links,
within `fuel` steps. -/
def chain (s : AllocState) : Nat → Option Nat → List Nat
  | _, none => []
  | 0, some _ => []
  | fuel + 1, some c => c :: chain s fuel (lookupHdr s.heap c).next

/-- Whether the `next`-link traversal from `cur` reaches `NULL` within `fuel`
steps. -/
def reachesNil (s : AllocState) : Nat → Option Nat → Bool
  | _, none => true
  | 0, some _ => false
  | fuel + 1, some c => reachesNil s fuel (lookupHdr s.heap c).next

/-! Concrete allocator states and runs used to settle the claims.  `mem0` is
an all-zero byte memory; `initState` is a fresh arena before any call. -/

/-- An all-zero byte memory. -/
def mem0 : Nat → Nat := fun _ => 0

/-- A fresh allocator state: empty header table, `HEAD = NULL`,
`next_fit_ptr = NULL`, break at 0 with a generous exhaustion bound. -/
def initState : AllocState := ⟨[], none, none, 0, 100000, mem0⟩

/-- A state holding one block whose header tag was overwritten with `7`
(not the sentinel); the block is allocated (not on the free list). -/
def ex1 : AllocState := ⟨[(0, ⟨32, none, 7⟩)], none, none, 48, 1000, mem0⟩

/-- Run behind claim C2: allocate three contiguous 32-byte blocks. -/
def c2a : AllocState × Option Nat := tumalloc initState 32

/-- Second 32-byte allocation of the C2 run. -/
def c2b : AllocState × Option Nat := tumalloc c2a.1 32

/-- Third 32-byte allocation of the C2 run. -/
def c2c : AllocState × Option Nat := tumalloc c2b.1 32

/-- C2 run: release A (ptr 16), then C (ptr 112), then B (ptr 64). -/
def c2f : AllocState := tufree (tufree (tufree c2c.1 16) 112) 64

/-- Run behind claim C3: allocate 80 bytes, free the block, then allocate 32
bytes out of it, forcing a split. -/
def c3m : AllocState × Option Nat := tumalloc (tufree (tumalloc initState 80).1 16) 32

/-- Run behind claim C4, first allocation: 48 bytes. -/
def c4m1 : AllocState × Option Nat := tumalloc initState 48

/-- Run behind claim C4: free the 48-byte block and allocate 16 bytes out of
it, forcing a split whose remainder header lands at address 32. -/
def c4m2 : AllocState × Option Nat := tumalloc (tufree c4m1.1 16) 16

/-- A state for claim C5: the free list holds block 0 (size 64) then block 80
(size 16), and the next-fit cursor rests on block 80 — past the only block
that can satisfy a 64-byte request. -/
def ex5 : AllocState :=
  ⟨[(0, ⟨64, some 80, 0⟩), (80, ⟨16, none, 0⟩)], some 0, some 80, 112, 1000, mem0⟩

/-- A state for claim C8: one allocated 16-byte block, and the break already
at the exhaustion bound so that any further `sbrk` fails. -/
def ex8 : AllocState := ⟨[(0, ⟨16, none, 0⟩)], none, none, 32, 32, mem0⟩

/-- A state for claim C7: one allocated 32-byte block (free list empty). -/
def ex7 : AllocState := ⟨[(0, ⟨32, none, 0⟩)], none, none, 48, 1000, mem0⟩

/-- A state for claim C10: a free 48-byte block at address 0. -/
def ex10 : AllocState := ⟨[(0, ⟨48, none, 0⟩)], some 0, none, 64, 1000, mem0⟩

/-! Basic facts about the header table. -/

theorem lookupHdr_storeHdr_eq (h : List (Nat × Hdr)) (a : Nat) (v : Hdr) :
    lookupHdr (storeHdr h a v) a = v := by
  induction h with
  | nil => simp [storeHdr, lookupHdr]
  | cons x t ih =>
      obtain ⟨b, g⟩ := x
      by_cases hb : b = a
      · simp [storeHdr, hb, lookupHdr]
      · simp [storeHdr, hb, lookupHdr, ih]

theorem lookupHdr_storeHdr_ne (h : List (Nat × Hdr)) (a b : Nat) (v : Hdr)
    (hne : b ≠ a) : lookupHdr (storeHdr h a v) b = lookupHdr h b := by
  induction h with
  | nil => simp [storeHdr, lookupHdr, Ne.symm hne]
  | cons x t ih =>
      obtain ⟨c, g⟩ := x
      by_cases hc : c = a
      · subst hc
        simp [storeHdr, lookupHdr, Ne.symm hne]
      · simp [storeHdr, hc, lookupHdr, ih]

/-! Helper facts about the allocation paths. -/

theorem tumallocGrow_none_eq (s : AllocState) (size : Nat)
    (h : (tumallocGrow s size).2 = none) : (tumallocGrow s size).1 = s := by
  unfold tumallocGrow at h ⊢
  cases hs : sbrkM s (size + HDRW) with
  | none => simp [hs]
  | some v => rw [hs] at h; simp at h

theorem tumallocLoop_none_eq (s : AllocState) (size : Nat) :
    ∀ fuel cur prev, (tumallocLoop s size fuel cur prev).2 = none →
      (tumallocLoop s size fuel cur prev).1 = s := by
  intro fuel
  induction fuel with
  | zero =>
      intro cur prev h
      cases cur with
      | none => exact tumallocGrow_none_eq s size h
      | some c => rfl
  | succ n ih =>
      intro cur prev h
      cases cur with
      | none => exact tumallocGrow_none_eq s size h
      | some c =>
          rw [tumallocLoop] at h ⊢
          by_cases hfit : size ≤ (lookupHdr s.heap c).size
          · simp only [hfit, if_true] at h
            simp at h
          · simp only [hfit, if_false] at h ⊢
            exact ih _ _ h

theorem tumalloc_none_eq (s : AllocState) (n : Nat)
    (h : (tumalloc s n).2 = none) : (tumalloc s n).1 = s := by
  unfold tumalloc at h ⊢
  exact tumallocLoop_none_eq s (align16 n) _ _ _ h

theorem tumallocLoop_noFit (s : AllocState) (size : Nat) :
    ∀ fuel cur prev, reachesNil s fuel cur = true →
      (∀ a ∈ chain s fuel cur, (lookupHdr s.heap a).size < size) →
      tumallocLoop s size fuel cur prev = tumallocGrow s size := by
  intro fuel
  induction fuel with
  | zero =>
      intro cur prev hterm _
      cases cur with
      | none => rfl
      | some c => simp [reachesNil] at hterm
  | succ n ih =>
      intro cur prev hterm hsmall
      cases cur with
      | none => rfl
      | some c =>
          have hc : (lookupHdr s.heap c).size < size := hsmall c (by simp [chain])
          rw [tumallocLoop]
          simp only [Nat.not_le.mpr hc, if_false]
          exact ih _ _ (by simpa [reachesNil] using hterm)
            (fun a ha => hsmall a (by simp [chain, ha]))

/-! Claim theorems. -/

/-- Claim C10 (confirmed): whenever `split` succeeds on a block (the block's
size is at least the requested size plus a header width), the byte span is
conserved — the original size equals the shrunk size plus the header width
plus the remainder's size — and the remainder's header sits exactly at the
end address of the shrunk block, so the two blocks tile the original region
without overlap or gap. -/
theorem c10_split_conserves_span (s : AllocState) (a n : Nat)
    (hfit : n + HDRW ≤ (lookupHdr s.heap a).size) :
    (split s a n).2 = some a ∧
    (lookupHdr (split s a n).1.heap a).size = n ∧
    (lookupHdr (split s a n).1.heap (a + n + HDRW)).size
      = (lookupHdr s.heap a).size - n - HDRW ∧
    n + HDRW + ((lookupHdr s.heap a).size - n - HDRW) = (lookupHdr s.heap a).size ∧
    a + n + HDRW = a + HDRW + n := by
  have hW : HDRW = 16 := rfl
  have hnotlt : ¬ ((lookupHdr s.heap a).size < n + HDRW) := Nat.not_lt.mpr hfit
  have hne : a + n + HDRW ≠ a := by omega
  refine ⟨?_, ?_, ?_, by omega, by omega⟩
  · simp [split, hnotlt]
  · simp [split, hnotlt, lookupHdr_storeHdr_eq]
  · simp [split, hnotlt, lookupHdr_storeHdr_ne _ _ _ _ hne, lookupHdr_storeHdr_eq]

/-- Witness for C10 at a concrete free 48-byte block split to size 16. -/
theorem c10_split_conserves_span_witness :
    16 + HDRW ≤ (lookupHdr ex10.heap 0).size ∧
    ((split ex10 0 16).2 = some 0 ∧
     (lookupHdr (split ex10 0 16).1.heap 0).size = 16 ∧
     (lookupHdr (split ex10 0 16).1.heap (0 + 16 + HDRW)).size
       = (lookupHdr ex10.heap 0).size - 16 - HDRW ∧
     16 + HDRW + ((lookupHdr ex10.heap 0).size - 16 - HDRW)
       = (lookupHdr ex10.heap 0).size ∧
     0 + 16 + HDRW = 0 + HDRW + 16) :=
  ⟨by decide, c10_split_conserves_span ex10 0 16 (by decide)⟩

/-- Counterexample to claim C7: with one allocated 32-byte block at pointer
16 and an empty free list, `turealloc(16, 0)` returns the same pointer 16
(because every block's size is ≥ 0) and the free list stays empty — the block
is not released and the result is not empty/invalid. -/
theorem c7_counterexample :
    (turealloc ex7 16 0).2 = some 16 ∧ (turealloc ex7 16 0).1.head = none := by
  decide

/-- Claim C7 (amended): for every non-null pointer, `turealloc` with
`new_size = 0` returns the original pointer and leaves the state unchanged —
the in-place branch `block->size >= new_size` always fires at 0, so nothing
is released. -/
theorem c7_realloc_zero_keeps_block (s : AllocState) (p : Nat) (hp : p ≠ 0) :
    turealloc s p 0 = (s, some p) := by
  unfold turealloc
  rw [if_neg hp, if_pos (Nat.zero_le _)]

/-- Witness for the amended C7 at the concrete state `ex7`. -/
theorem c7_realloc_zero_keeps_block_witness :
    (16 : Nat) ≠ 0 ∧ turealloc ex7 16 0 = (ex7, some 16) :=
  ⟨by decide, c7_realloc_zero_keeps_block ex7 16 (by decide)⟩

/-- Counterexample to claim C1: the header before pointer 16 carries tag 7,
which is not the sentinel, yet `tufree 16` pushes the block at the head of
the free list with its tag still 7 — no corruption detection and no fatal
termination happen. -/
theorem c1_counterexample :
    (tufree ex1 16).head = some 0 ∧
    (lookupHdr (tufree ex1 16).heap 0).tag = 7 ∧ (7 : Nat) ≠ MAGIC := by
  decide

/-- Claim C1 (amended): `tufree` performs no tag validation and never
terminates the process — every non-null pointer, even one whose preceding
header's tag differs from the sentinel, has its block pushed at the head of
the free list with the tag left untouched. -/
theorem c1_no_tag_validation (s : AllocState) (p : Nat) (hp : p ≠ 0)
    (_htag : (lookupHdr s.heap (p - HDRW)).tag ≠ MAGIC) :
    (tufree s p).head = some (p - HDRW) ∧
    lookupHdr (tufree s p).heap (p - HDRW)
      = ⟨(lookupHdr s.heap (p - HDRW)).size, s.head, (lookupHdr s.heap (p - HDRW)).tag⟩ := by
  constructor
  · simp [tufree, hp]
  · simp [tufree, hp, lookupHdr_storeHdr_eq]

/-- Witness for the amended C1 at the corrupted-tag state `ex1`. -/
theorem c1_no_tag_validation_witness :
    ((16 : Nat) ≠ 0 ∧ (lookupHdr ex1.heap (16 - HDRW)).tag ≠ MAGIC) ∧
    ((tufree ex1 16).head = some (16 - HDRW) ∧
     lookupHdr (tufree ex1 16).heap (16 - HDRW)
       = ⟨(lookupHdr ex1.heap (16 - HDRW)).size, ex1.head,
          (lookupHdr ex1.heap (16 - HDRW)).tag⟩) :=
  ⟨⟨by decide, by decide⟩, c1_no_tag_validation ex1 16 (by decide) (by decide)⟩

/-- Claim C2 (code bug): from a fresh arena, allocating three contiguous
32-byte blocks returns pointers 16, 64 and 112; releasing A (16), then C
(112), then B (64) leaves the free list holding THREE separate 32-byte
blocks, headers at 48, 96 and 0 — not one coalesced block of size
`3*32 + 2*16 = 128` — because `tufree` never invokes `coalesce` (the
function is implemented in `alloc.c` but dead).  A subsequent 64-byte
allocation therefore grows the arena (break 144 → 224) instead of reusing
the span. -/
theorem c2_free_never_coalesces :
    c2a.2 = some 16 ∧ c2b.2 = some 64 ∧ c2c.2 = some 112 ∧
    chain c2f 10 c2f.head = [48, 96, 0] ∧
    (lookupHdr c2f.heap 48).size = 32 ∧
    (lookupHdr c2f.heap 96).size = 32 ∧
    (lookupHdr c2f.heap 0).size = 32 ∧
    c2f.brk = 144 ∧
    (tumalloc c2f 64).2 = some 160 ∧ (tumalloc c2f 64).1.brk = 224 := by
  decide

/-- Claim C3 (code bug): allocating 32 bytes out of a free 80-byte block
splits it — the remainder header is created at offset `32 + 16 = 48` with
size `80 - 32 - 16 = 32`, and the served block is shrunk to 32 — but the
remainder is never linked into the free list: after `tumalloc` unlinks the
served block with `HEAD = current->next`, the list is empty and the
remainder is unreachable (leaked). -/
theorem c3_split_remainder_leaked :
    c3m.2 = some 16 ∧
    (lookupHdr c3m.1.heap 0).size = 32 ∧
    (lookupHdr c3m.1.heap 48).size = 32 ∧
    c3m.1.head = none ∧ chain c3m.1 5 c3m.1.head = [] := by
  decide

/-- Claim C4 (code bug): after allocating 48 bytes (pointer 16), releasing
it, and allocating 16 bytes out of it (pointer 16 again), the split's
remainder header at address 32 exists in memory with size 16 but the free
list is empty — the remainder is reachable from neither the free list head
nor any pointer ever handed to a caller (the only pointer returned in the
run is 16, whose block is the served one at header 0), violating the
free-xor-allocated invariant. -/
theorem c4_block_neither_free_nor_allocated :
    c4m1.2 = some 16 ∧ c4m2.2 = some 16 ∧
    lookupHdr c4m2.1.heap 32 = ⟨16, none, 0⟩ ∧
    (lookupHdr c4m2.1.heap 0).size = 16 ∧
    c4m2.1.head = none ∧ chain c4m2.1 5 c4m2.1.head = [] := by
  decide

/-- Counterexample to claim C5: in `ex5` the free list is `[0, 80]` and block
0 has size 64, enough for the 64-byte request; but the next-fit cursor rests
on block 80 and the scan does not wrap to the head, so `tumalloc 64` grows
the arena (break 112 → 192) and returns the fresh pointer 128 instead of
reusing block 0. -/
theorem c5_counterexample :
    chain ex5 3 ex5.head = [0, 80] ∧
    (lookupHdr ex5.heap 0).size = 64 ∧ ex5.nfp = some 80 ∧ ex5.brk = 112 ∧
    (tumalloc ex5 64).2 = some 128 ∧ (tumalloc ex5 64).1.brk = 192 := by
  decide

/-- Claim C5 (amended): `tumalloc` resumes scanning from the block the
next-fit cursor references, but never wraps back to the list head — whenever
every block reachable FROM THE CURSOR is too small (and `sbrk` succeeds),
the arena grows by the aligned size plus a header width and the fresh block
is returned, regardless of any fitting block earlier in the list. -/
theorem c5_next_fit_no_wrap (s : AllocState) (n c : Nat)
    (hc : s.nfp = some c)
    (hterm : reachesNil s (s.heap.length + 1) (some c) = true)
    (hnofit : ∀ a ∈ chain s (s.heap.length + 1) (some c),
        (lookupHdr s.heap a).size < align16 n)
    (hbrk : s.brk + (align16 n + HDRW) ≤ s.brkLimit) :
    (tumalloc s n).2 = some (s.brk + HDRW) ∧
    (tumalloc s n).1.brk = s.brk + (align16 n + HDRW) := by
  unfold tumalloc
  rw [hc]
  rw [tumallocLoop_noFit s (align16 n) _ _ _ hterm hnofit]
  unfold tumallocGrow
  rw [sbrkM, if_pos hbrk]
  exact ⟨rfl, rfl⟩

/-- Witness for the amended C5 at `ex5` with a 64-byte request. -/
theorem c5_next_fit_no_wrap_witness :
    (ex5.nfp = some 80 ∧
     reachesNil ex5 (ex5.heap.length + 1) (some 80) = true ∧
     (∀ a ∈ chain ex5 (ex5.heap.length + 1) (some 80),
        (lookupHdr ex5.heap a).size < align16 64) ∧
     ex5.brk + (align16 64 + HDRW) ≤ ex5.brkLimit) ∧
    (tumalloc ex5 64).2 = some (ex5.brk + HDRW) ∧
    (tumalloc ex5 64).1.brk = ex5.brk + (align16 64 + HDRW) :=
  ⟨⟨by decide, by decide, by decide, by decide⟩,
   c5_next_fit_no_wrap ex5 64 80 (by decide) (by decide) (by decide) (by decide)⟩

/-- Counterexample to claim C6: `2^32 * 2^32 = 2^64` overflows the size type,
yet `tucalloc (2^32) (2^32)` on a fresh arena does not fail — the product
silently wraps to 0, `tumalloc 0` runs (growing the arena by one header
width) and the pointer 16 is returned. -/
theorem c6_counterexample :
    (2 : Nat) ^ 32 * 2 ^ 32 = W ∧
    (tucalloc initState (2 ^ 32) (2 ^ 32)).2 = some 16 ∧
    (tucalloc initState (2 ^ 32) (2 ^ 32)).1.brk = 16 := by
  decide

/-- Claim C6 (amended): `tucalloc` performs no overflow check — it computes
`num * size` in wrapping `size_t` arithmetic and delegates the wrapped
product to `tumalloc`; whenever the allocation succeeds, every byte of the
returned region of `num * size % 2^64` bytes is zero-filled. -/
theorem c6_zero_fill (s : AllocState) (num sz p i : Nat)
    (hp : (tucalloc s num sz).2 = some p)
    (hi : i < num * sz % W) :
    (tucalloc s num sz).1.mem (p + i) = 0 := by
  simp only [tucalloc] at hp ⊢
  cases hm : (tumalloc s (num * sz % W)).2 with
  | none => rw [hm] at hp; simp at hp
  | some q =>
      rw [hm] at hp
      have hqp : q = p := Option.some.inj hp
      subst hqp
      show memset0 (tumalloc s (num * sz % W)).1.mem q (num * sz % W) (q + i) = 0
      simp only [memset0]
      rw [if_pos ⟨Nat.le_add_right q i, Nat.add_lt_add_left hi q⟩]

/-- Witness for the amended C6: `tucalloc 2 8` on a fresh arena returns
pointer 16 and byte 19 of the 16-byte region is zero. -/
theorem c6_zero_fill_witness :
    ((tucalloc initState 2 8).2 = some 16 ∧ 3 < 2 * 8 % W) ∧
    (tucalloc initState 2 8).1.mem (16 + 3) = 0 :=
  ⟨⟨by decide, by decide⟩, c6_zero_fill initState 2 8 16 3 (by decide) (by decide)⟩

/-- Claim C8 (confirmed): for a non-null pointer whose block is smaller than
the requested growth, if the inner `tumalloc` fails then `turealloc` returns
the failure value and the entire state — in particular the original block's
header and the byte memory holding its contents — is exactly the input
state: nothing is freed and no data is lost. -/
theorem c8_failed_growth_preserves (s : AllocState) (p n : Nat) (hp : p ≠ 0)
    (hlt : (lookupHdr s.heap (p - HDRW)).size < n)
    (hfail : (tumalloc s n).2 = none) :
    turealloc s p n = (s, none) := by
  have h1 := tumalloc_none_eq s n hfail
  simp only [turealloc, if_neg hp, if_neg (Nat.not_le.mpr hlt), hfail, h1]

/-- Witness for C8: in `ex8` the break already sits at the exhaustion bound,
so growing the 16-byte block at pointer 16 to 100 bytes fails and returns
the state untouched. -/
theorem c8_failed_growth_preserves_witness :
    ((16 : Nat) ≠ 0 ∧ (lookupHdr ex8.heap (16 - HDRW)).size < 100 ∧
     (tumalloc ex8 100).2 = none) ∧
    turealloc ex8 16 100 = (ex8, none) :=
  ⟨⟨by decide, by decide, by decide⟩,
   c8_failed_growth_preserves ex8 16 100 (by decide) (by decide) (by decide)⟩

/-- Counterexample to claim C9: on a fresh arena, `tumalloc 0` does not
return an empty result — it proceeds to the `sbrk` path, grows the arena by
one header width (break 0 → 16) and returns the pointer 16 to a zero-size
block. -/
theorem c9_counterexample :
    initState.brk = 0 ∧
    (tumalloc initState 0).2 = some 16 ∧ (tumalloc initState 0).1.brk = 16 := by
  decide

/-- Claim C9 (amended): `tumalloc` has no zero-size guard — with an empty
free list, a null cursor and a successful `sbrk`, a request for 0 bytes
aligns to 0, grows the arena by exactly one header width and returns a
pointer one header past the old break. -/
theorem c9_malloc_zero_proceeds (s : AllocState)
    (hhead : s.head = none) (hnfp : s.nfp = none)
    (hbrk : s.brk + HDRW ≤ s.brkLimit) :
    (tumalloc s 0).2 = some (s.brk + HDRW) ∧
    (tumalloc s 0).1.brk = s.brk + HDRW := by
  have ha : align16 0 = 0 := by decide
  unfold tumalloc
  rw [hnfp, hhead, ha]
  show (tumallocGrow s 0).2 = _ ∧ (tumallocGrow s 0).1.brk = _
  unfold tumallocGrow
  rw [sbrkM, if_pos (by simpa using hbrk)]
  exact ⟨rfl, rfl⟩

/-- Witness for the amended C9 at the fresh arena. -/
theorem c9_malloc_zero_proceeds_witness :
    (initState.head = none ∧ initState.nfp = none ∧
     initState.brk + HDRW ≤ initState.brkLimit) ∧
    (tumalloc initState 0).2 = some (initState.brk + HDRW) ∧
    (tumalloc initState 0).1.brk = initState.brk + HDRW :=
  ⟨⟨rfl, rfl, by decide⟩,
   c9_malloc_zero_proceeds initState rfl rfl (by decide)⟩

end MemAlloc
